import Mathlib

/-!
Verification of the chadcommit streaming-completion core (src/unnamed/part_000:
`activate`, `turboCompletion`) against its natural-language specification.

The embedding models, faithfully to the TypeScript source:
  * JavaScript values produced by `JSON.parse` (`JsVal`) and the exact
    JSON grammar accepted by `JSON.parse` (objects, arrays, strings with
    escapes, integers/numbers, literals; whole-input, JSON whitespace).
    Numbers keep only their integer part: no claim involves a non-integer
    payload number, and IEEE floats are out of scope of the embedding.
  * the regex scan `decoder.decode(chunk).matchAll(/data: ({.*})\n/g)` on
    an already-decoded chunk string (`dataMatches`): a match needs the
    literal prefix `data: ` followed by a line that begins with `{`, ends
    with `}` immediately before a `\n`, and contains no line terminator
    (`.` in a JavaScript regex matches neither `\n` nor `\r`); scanning is
    leftmost-first and resumes after each match, advancing one character
    after a failed position, exactly as `matchAll` does.
  * the body of the `data` handler: `JSON.parse(match[1]).choices[0].delta`
    followed by destructuring `content`, with JavaScript property-access and
    falsiness semantics (`undefined`/`null` bases throw TypeError, missing
    properties are `undefined`, `if (!content) continue`).
  * the session promise (`runSession`): non-200 responses reject with the
    string `OpenAI: <statusCode> <statusMessage>` before any body event
    (the handler code does not return after rejecting, so chunk handlers
    stay attached); `end` resolves with the accumulated text; the
    cancellation callback destroys the request and resolves with no value;
    a promise settles at most once; per Node stream semantics a destroyed
    response delivers no further `data`/`end` events.
-/

/-- A JavaScript value as produced by `JSON.parse`, plus `undefined`. -/
inductive JsVal where
  | jsUndefined
  | jnull
  | jbool (b : Bool)
  | jnum (n : Int)
  | jstr (s : String)
  | jarr (xs : List JsVal)
  | jobj (fields : List (String × JsVal))

/-- The JSON whitespace characters accepted by `JSON.parse`. -/
def isJsonWs : Char → Bool
  | ' ' => true
  | '\t' => true
  | '\n' => true
  | '\r' => true
  | _ => false

def skipWs (s : List Char) : List Char := s.dropWhile isJsonWs

def isDec (c : Char) : Bool := 47 < c.toNat && c.toNat < 58

/-- Value of one hexadecimal digit (for the `\uXXXX` string escape). -/
def hexDigit? (c : Char) : Option Nat :=
  let n := c.toNat
  if 47 < n && n < 58 then some (n - 48)
  else if 96 < n && n < 103 then some (n - 87)
  else if 64 < n && n < 71 then some (n - 55)
  else none

/-- Body of a JSON string after the opening quote: the decoded characters
and the input after the closing quote.  Escapes and the control-character
restriction follow the JSON grammar of `JSON.parse`. -/
def parseStrBody : List Char → Option (List Char × List Char)
  | [] => none
  | '"' :: rest => some ([], rest)
  | '\\' :: '"' :: rest => (parseStrBody rest).map (fun p => ('"' :: p.1, p.2))
  | '\\' :: '\\' :: rest => (parseStrBody rest).map (fun p => ('\\' :: p.1, p.2))
  | '\\' :: '/' :: rest => (parseStrBody rest).map (fun p => ('/' :: p.1, p.2))
  | '\\' :: 'b' :: rest => (parseStrBody rest).map (fun p => ('\x08' :: p.1, p.2))
  | '\\' :: 'f' :: rest => (parseStrBody rest).map (fun p => ('\x0c' :: p.1, p.2))
  | '\\' :: 'n' :: rest => (parseStrBody rest).map (fun p => ('\n' :: p.1, p.2))
  | '\\' :: 'r' :: rest => (parseStrBody rest).map (fun p => ('\r' :: p.1, p.2))
  | '\\' :: 't' :: rest => (parseStrBody rest).map (fun p => ('\t' :: p.1, p.2))
  | '\\' :: 'u' :: a :: b :: c :: d :: rest =>
    match hexDigit? a, hexDigit? b, hexDigit? c, hexDigit? d with
    | some x, some y, some z, some w =>
      (parseStrBody rest).map (fun p => (Char.ofNat (((x * 16 + y) * 16 + z) * 16 + w) :: p.1, p.2))
    | _, _, _, _ => none
  | '\\' :: _ => none
  | c :: rest =>
    if c.toNat < 32 then none
    else (parseStrBody rest).map (fun p => (c :: p.1, p.2))

/-- Splits a run of leading decimal digits off the input. -/
def splitDec (s : List Char) : List Char × List Char := s.span isDec

/-- Numeric value of a digit run. -/
def decValue (ds : List Char) : Nat :=
  ds.foldl (fun n c => 10 * n + (c.toNat - 48)) 0

/-- Unsigned integer part of a JSON number (no leading zeros, per the
JSON grammar). -/
def parseUIntPart : List Char → Option (Nat × List Char)
  | [] => none
  | '0' :: rest =>
    match rest with
    | c :: _ => if isDec c then none else some (0, rest)
    | [] => some (0, [])
  | c :: rest =>
    if isDec c then
      let p := splitDec rest
      some (decValue (c :: p.1), p.2)
    else none

/-- Skip a JSON fraction part, if present (at least one digit required). -/
def skipFrac : List Char → Option (List Char)
  | '.' :: rest =>
    let p := splitDec rest
    if p.1.isEmpty then none else some p.2
  | s => some s

/-- Skip a JSON exponent part, if present (at least one digit required). -/
def skipExp : List Char → Option (List Char)
  | [] => some []
  | e :: rest =>
    if e = 'e' || e = 'E' then
      let body : List Char :=
        match rest with
        | '+' :: r2 => r2
        | '-' :: r2 => r2
        | r2 => r2
      let p := splitDec body
      if p.1.isEmpty then none else some p.2
    else some (e :: rest)

/-- A JSON number.  The model keeps the integer part; the fraction and
exponent are validated and skipped (no claim involves a non-integer
payload number). -/
def parseNumber (s : List Char) : Option (Int × List Char) := do
  let signAndRest : Bool × List Char :=
    match s with
    | '-' :: rest => (true, rest)
    | _ => (false, s)
  let (n, s2) ← parseUIntPart signAndRest.2
  let s3 ← skipFrac s2
  let s4 ← skipExp s3
  some (if signAndRest.1 then -(n : Int) else (n : Int), s4)

mutual

/-- One JSON value (with leading whitespace), as `JSON.parse` accepts it.
The fuel argument only bounds nesting; `length + 1` always suffices since
every recursive call consumes at least one input character. -/
def parseVal : Nat → List Char → Option (JsVal × List Char)
  | 0, _ => none
  | fuel + 1, s =>
    match skipWs s with
    | '"' :: rest => (parseStrBody rest).map (fun p => (JsVal.jstr (String.mk p.1), p.2))
    | '{' :: rest =>
      match skipWs rest with
      | '}' :: tail => some (JsVal.jobj [], tail)
      | other => (parseMembers fuel other).map (fun p => (JsVal.jobj p.1, p.2))
    | '[' :: rest =>
      match skipWs rest with
      | ']' :: tail => some (JsVal.jarr [], tail)
      | other => (parseElems fuel other).map (fun p => (JsVal.jarr p.1, p.2))
    | 't' :: 'r' :: 'u' :: 'e' :: rest => some (JsVal.jbool true, rest)
    | 'f' :: 'a' :: 'l' :: 's' :: 'e' :: rest => some (JsVal.jbool false, rest)
    | 'n' :: 'u' :: 'l' :: 'l' :: rest => some (JsVal.jnull, rest)
    | other => (parseNumber other).map (fun p => (JsVal.jnum p.1, p.2))

/-- Members of a JSON object, after the opening brace, at least one
member present. -/
def parseMembers : Nat → List Char → Option (List (String × JsVal) × List Char)
  | 0, _ => none
  | fuel + 1, s =>
    match skipWs s with
    | '"' :: rest => do
      let (k, r1) ← parseStrBody rest
      match skipWs r1 with
      | ':' :: r2 => do
        let (v, r3) ← parseVal fuel r2
        match skipWs r3 with
        | ',' :: r4 => do
          let (ms, r5) ← parseMembers fuel r4
          some ((String.mk k, v) :: ms, r5)
        | '}' :: r4 => some ([(String.mk k, v)], r4)
        | _ => none
      | _ => none
    | _ => none

/-- Elements of a JSON array, after the opening bracket, at least one
element present. -/
def parseElems : Nat → List Char → Option (List JsVal × List Char)
  | 0, _ => none
  | fuel + 1, s => do
    let (v, r1) ← parseVal fuel s
    match skipWs r1 with
    | ',' :: r2 => do
      let (vs, r3) ← parseElems fuel r2
      some (v :: vs, r3)
    | ']' :: r2 => some ([v], r2)
    | _ => none

end

/-- `JSON.parse`: one JSON value covering the whole input (trailing
whitespace allowed); `none` models the thrown `SyntaxError`. -/
def jsonParseJS (s : String) : Option JsVal :=
  match parseVal (s.length + 1) s.data with
  | some (v, rest) => if skipWs rest = [] then some v else none
  | none => none

/-- Runtime errors that can be thrown inside the `data` handler:
`SyntaxError` from `JSON.parse`, `TypeError` from a property access or a
destructuring on `undefined`/`null`. -/
inductive JsErr where
  | typeError
  | syntaxError
deriving DecidableEq, Repr

/-- Last binding of a key in a parsed object (with duplicate keys,
`JSON.parse` keeps the last occurrence). -/
def lookupLast (fs : List (String × JsVal)) (k : String) : Option JsVal :=
  fs.foldl (fun acc p => if p.1 = k then some p.2 else acc) none

/-- A canonical decimal array index, as JavaScript treats integer-like
property keys on arrays (no leading zeros, digits only). -/
def decIndex? (s : String) : Option Nat :=
  match s.data with
  | [] => none
  | ['0'] => some 0
  | c :: cs =>
    if isDec c && c != '0' && cs.all isDec then some (decValue (c :: cs))
    else none

/-- JavaScript property access `base[k]` / `base.k`, and equally the
destructuring `const obj = base` followed by reading field `k`: throws
`TypeError` when the base is `undefined` or `null`, yields `undefined`
for a missing property, indexes arrays by canonical decimal key.
(Built-in properties such as `length` are not consulted by the source,
which only reads `choices`, `0`, `delta`, `content`.) -/
def getProp : JsVal → String → Except JsErr JsVal
  | .jsUndefined, _ => .error .typeError
  | .jnull, _ => .error .typeError
  | .jobj fs, k => .ok ((lookupLast fs k).getD .jsUndefined)
  | .jarr xs, k =>
    .ok (match decIndex? k with
         | some i => (xs.get? i).getD .jsUndefined
         | none => .jsUndefined)
  | _, _ => .ok .jsUndefined

/-- JavaScript truthiness of a value, as tested by `if (!content)`. -/
def truthy : JsVal → Bool
  | .jsUndefined => false
  | .jnull => false
  | .jbool b => b
  | .jnum n => n != 0
  | .jstr s => s != ""
  | .jarr _ => true
  | .jobj _ => true

mutual

/-- JavaScript string coercion, as applied by `fullText += content`.
The fuel only bounds the recursion into array elements
(`Array.prototype.toString` joins the recursively-coerced elements by
commas, rendering `null` and `undefined` elements empty); any fuel at
least the number of nodes of the value renders it completely, and every
node of a `JSON.parse`d value consumes at least one input character. -/
def jsToStringF : Nat → JsVal → String
  | _, .jstr s => s
  | _, .jnum n => toString n
  | _, .jbool b => if b then "true" else "false"
  | _, .jnull => "null"
  | _, .jsUndefined => "undefined"
  | _, .jobj _ => "[object Object]"
  | 0, .jarr _ => ""
  | fuel + 1, .jarr xs => jsArrToStringF fuel xs

/-- Comma-joined rendering of array elements. -/
def jsArrToStringF : Nat → List JsVal → String
  | _, [] => ""
  | 0, _ :: _ => ""
  | fuel + 1, x :: xs =>
    (match x with
     | .jnull => ""
     | .jsUndefined => ""
     | v => jsToStringF fuel v) ++
    (match xs with
     | [] => ""
     | _ => "," ++ jsArrToStringF fuel xs)

end

/-- Characters that `.` does not match in a JavaScript regex without the
`s` flag (the astral separators U+2028/U+2029 are omitted: they cannot
occur in the streams at issue). -/
def notLineEnd (c : Char) : Bool := !(c = '\n' || c = '\r')

/-- Match of `/data: ({.*})\n/` anchored at the start of the input:
the literal `data: `, then a greedy `{.*}` capture that must be followed
immediately by `\n`.  With a greedy `.*` that cannot cross a line
terminator, the regex matches exactly when the text from the `{` up to
the next line terminator ends in `}` just before a `\n`; the capture is
that whole segment.  Returns the capture and the input after the `\n`. -/
def tryDataMatch : List Char → Option (List Char × List Char)
  | 'd' :: 'a' :: 't' :: 'a' :: ':' :: ' ' :: rest =>
    let line := rest.takeWhile notLineEnd
    let after := rest.drop line.length
    match after with
    | '\n' :: tail =>
      if 2 ≤ line.length ∧ line.head? = some '{' ∧ line.getLast? = some '}' then
        some (line, tail)
      else none
    | _ => none
  | _ => none

/-- `matchAll` scanning: leftmost match first, resume after each match,
advance one character past a failed position.  The fuel only bounds the
number of scan steps; `length + 1` always suffices since every step
consumes at least one character. -/
def scanDataMatches : Nat → List Char → List (List Char)
  | 0, _ => []
  | _ + 1, [] => []
  | fuel + 1, c :: cs =>
    match tryDataMatch (c :: cs) with
    | some (cap, rest) => cap :: scanDataMatches fuel rest
    | none => scanDataMatches fuel cs

/-- All captures of `decoder.decode(chunk).matchAll(/data: ({.*})\n/g)`,
in order, on the decoded chunk text. -/
def dataMatches (s : String) : List String :=
  (scanDataMatches (s.length + 1) s.data).map (fun l => String.mk l)

/-- The body of the `for (const match of dataMatches)` loop on one capture:
`const { content } = JSON.parse(match[1]).choices[0].delta`, then
`if (!content) continue`.  Returns `none` for a skipped (falsy) content,
the coerced content string otherwise; errors model the thrown exceptions. -/
def extractContent (cap : String) : Except JsErr (Option String) :=
  match jsonParseJS cap with
  | none => .error .syntaxError
  | some v => do
    let choices ← getProp v "choices"
    let first ← getProp choices "0"
    let delta ← getProp first "delta"
    let content ← getProp delta "content"
    pure (if truthy content then some (jsToStringF (cap.length + 1) content) else none)

/-- Outcome of running the `data` handler body on one chunk: the running
text afterwards, the successive sink arguments (`onText(fullText)` after
each appended delta), and the exception, if one escaped the handler
(which aborts the loop over the remaining captures of that chunk). -/
structure ChunkResult where
  fullText : String
  sinks : List String
  err : Option JsErr
deriving DecidableEq, Repr

def processCaps (fullText : String) : List String → ChunkResult
  | [] => ⟨fullText, [], none⟩
  | cap :: rest =>
    match extractContent cap with
    | .error e => ⟨fullText, [], some e⟩
    | .ok none => processCaps fullText rest
    | .ok (some content) =>
      let ft := fullText ++ content
      let r := processCaps ft rest
      ⟨r.fullText, ft :: r.sinks, r.err⟩

/-- The whole `data` handler on one decoded chunk. -/
def processChunk (fullText chunk : String) : ChunkResult :=
  processCaps fullText (dataMatches chunk)

/-- Settlement of the `turboCompletion` promise: `resolve(fullText)`,
`resolve()` (value absent, modelled as `none`), or a rejection. -/
inductive Settle where
  | resolved (v : Option String)
  | rejected (msg : String)
deriving DecidableEq, Repr

/-- State of one completion session (the closure state of the
`turboCompletion` promise executor): the running `fullText`, the
successive `onText` arguments, the promise settlement (a promise settles
at most once), whether `req.destroy()` has been called, and the
exceptions that escaped the `data` handler uncaught. -/
structure SessionState where
  fullText : String
  sinkLog : List String
  settled : Option Settle
  destroyed : Bool
  uncaught : List JsErr
deriving DecidableEq, Repr

/-- Events delivered to the session: a decoded response body chunk, the
response `end`, the cancellation-token callback, a request `error`. -/
inductive RespEvent where
  | chunk (s : String)
  | endOfStream
  | cancel
  | reqError (msg : String)
deriving DecidableEq, Repr

/-- Settle the promise if it is not settled yet (later `resolve`/`reject`
calls are no-ops). -/
def settleOnce (st : SessionState) (x : Settle) : SessionState :=
  match st.settled with
  | some _ => st
  | none => { st with settled := some x }

/-- One event step of `turboCompletion`'s response handling.  A destroyed
response (after `req.destroy()`) delivers no further `data` or `end`
events, per Node stream semantics; the cancellation callback runs
`req.destroy(); resolve()` atomically within one event turn. -/
def stepSession (st : SessionState) : RespEvent → SessionState
  | .chunk c =>
    if st.destroyed then st
    else
      let r := processChunk st.fullText c
      { st with
          fullText := r.fullText
          sinkLog := st.sinkLog ++ r.sinks
          uncaught := st.uncaught ++ r.err.toList }
  | .endOfStream =>
    if st.destroyed then st else settleOnce st (.resolved (some st.fullText))
  | .cancel => settleOnce { st with destroyed := true } (.resolved none)
  | .reqError m => settleOnce st (.rejected m)

/-- Session state right after the response head arrives: on a status other
than 200 the executor rejects immediately with the string
`OpenAI: <statusCode> <statusMessage>` and then still attaches the body
handlers (the source does not return after rejecting). -/
def initSession (status : Nat) (statusMessage : String) : SessionState :=
  { fullText := ""
    sinkLog := []
    destroyed := false
    uncaught := []
    settled :=
      if status = 200 then none
      else some (.rejected ("OpenAI: " ++ toString status ++ " " ++ statusMessage)) }

/-- A whole session: the response head, then the body/cancellation events
in arrival order (single cooperative flow of control). -/
def runSession (status : Nat) (statusMessage : String) (events : List RespEvent) : SessionState :=
  events.foldl stepSession (initSession status statusMessage)

/-- One chat message of the request body. -/
structure ChatMessage where
  role : String
  content : String
deriving DecidableEq, Repr

/-- The JSON request body written by `req.write(JSON.stringify({...}))`. -/
structure RequestBody where
  messages : List ChatMessage
  model : String
  max_tokens : Nat
  stream : Bool
deriving DecidableEq, Repr

/-- The body `turboCompletion` sends: the caller's messages with the model
hard-coded to `gpt-3.5-turbo`, `max_tokens: 256`, `stream: true`. -/
def turboRequestBody (messages : List ChatMessage) : RequestBody :=
  { messages := messages, model := "gpt-3.5-turbo", max_tokens := 256, stream := true }

/-- The prompt-template message content built by `generateMessages`. -/
def templateContent (useEmoji : Bool) : String :=
  "Analyze a git diff and make a short conventional commit message, follow this template: " ++
  (if useEmoji then "🚀" else "") ++ "feat(scope) [message]\n" ++
  (if useEmoji then "🛠️" else "") ++ "refactor(scope) [message]\n" ++
  (if useEmoji then "⚙️" else "") ++ "chore(scope) [message];  Response example: \"" ++
  (if useEmoji then "🚀" else "") ++ "feat(player) add captions\n" ++
  (if useEmoji then "🛠️" else "") ++ "refactor(player) support new formats\n" ++
  (if useEmoji then "⚙️" else "") ++ "chore(dependencies) upgrade terser to 5.16.6\""

/-- `generateMessages`: the template message and the diff-derived prompt. -/
def generateMessages (prompt : String) (useEmoji : Bool) : List ChatMessage :=
  [ { role := "user", content := templateContent useEmoji },
    { role := "user", content := prompt } ]

/-- The extension's configuration surface (package.json declares
`chadcommit.openAiKey`, `chadcommit.prompt`, `chadcommit.model`; the
source additionally reads `useEmoji`). -/
structure ChadConfig where
  openAiKey : String
  useEmoji : Bool
  model : String
  prompt : String
deriving DecidableEq, Repr

/-- The request body produced by one `suggest` invocation: `suggest` reads
only `openAiKey` and `useEmoji` from the configuration and calls
`turboCompletion`, which fixes the model. -/
def suggestRequestBody (cfg : ChadConfig) (diffPrompt : String) : RequestBody :=
  turboRequestBody (generateMessages diffPrompt cfg.useEmoji)

/-- Observable state of `activate`'s invocation coordinator: `busy` is
`cancellationTokenSource ≠ null`; the counters record sessions started,
sessions currently in flight, and cancellation signals fired. -/
structure CoordState where
  busy : Bool
  activeSessions : Nat
  sessionsStarted : Nat
  cancelsFired : Nat
deriving DecidableEq, Repr

/-- User-visible coordinator events: a command trigger, accepting the
offered `Cancel` item, and the in-flight `suggest` call settling. -/
inductive CoordEvent where
  | trigger
  | acceptCancel
  | settle
deriving DecidableEq, Repr

/-- One coordinator transition, as the command callback implements it
under the single-threaded event loop: a trigger while busy only shows the
`Thinking...` message and returns (no new token source, no new session);
a trigger while idle creates the token source and starts `suggest`;
accepting `Cancel` runs `cancel(); dispose(); cancellationTokenSource =
null` — the cancelled session's promise resolves within the same
microtask turn, so the session is no longer in flight afterwards; a
normal settlement disposes the token source and nulls it. -/
def stepCoord (s : CoordState) : CoordEvent → CoordState
  | .trigger =>
    if s.busy then s
    else
      { s with
          busy := true
          activeSessions := s.activeSessions + 1
          sessionsStarted := s.sessionsStarted + 1 }
  | .acceptCancel =>
    if s.busy then
      { s with
          busy := false
          activeSessions := s.activeSessions - 1
          cancelsFired := s.cancelsFired + 1 }
    else s
  | .settle =>
    if s.busy then
      { s with busy := false, activeSessions := s.activeSessions - 1 }
    else s

def initCoord : CoordState :=
  { busy := false, activeSessions := 0, sessionsStarted := 0, cancelsFired := 0 }

def runCoord (events : List CoordEvent) : CoordState :=
  events.foldl stepCoord initCoord

/-- String extension order: `b` extends `a`. -/
def StrLe (a b : String) : Prop := ∃ c, b = a ++ c

/-- Whether an event is a body chunk (the only event kind that can
neither settle the promise nor destroy the connection). -/
def isChunk : RespEvent → Bool
  | .chunk _ => true
  | _ => false

/-- Stream line carrying the delta `"fix: "`. -/
def chunkFix : String :=
  "data: \x7b\"choices\":[\x7b\"delta\":\x7b\"content\":\"fix: \"\x7d\x7d]\x7d\n"

/-- Stream line carrying the delta `"bug"`. -/
def chunkBug : String :=
  "data: \x7b\"choices\":[\x7b\"delta\":\x7b\"content\":\"bug\"\x7d\x7d]\x7d\n"

/-- Stream line carrying the delta `"ok"`. -/
def chunkOk : String :=
  "data: \x7b\"choices\":[\x7b\"delta\":\x7b\"content\":\"ok\"\x7d\x7d]\x7d\n"

/-- Stream line carrying the delta `"x"`. -/
def chunkX : String :=
  "data: \x7b\"choices\":[\x7b\"delta\":\x7b\"content\":\"x\"\x7d\x7d]\x7d\n"

/-- Stream line carrying the delta `"hi"`. -/
def chunkHi : String :=
  "data: \x7b\"choices\":[\x7b\"delta\":\x7b\"content\":\"hi\"\x7d\x7d]\x7d\n"

/-- First part of `chunkHi` split mid-line (after twelve characters). -/
def chunkHiA : String := "data: \x7b\"choi"

/-- Second part of `chunkHi` split mid-line. -/
def chunkHiB : String := "ces\":[\x7b\"delta\":\x7b\"content\":\"hi\"\x7d\x7d]\x7d\n"

/-- The terminal marker line. -/
def chunkDone : String := "data: [DONE]\n"

/-- A role-only opening event: the delta carries no `content`. -/
def chunkRoleOnly : String :=
  "data: \x7b\"choices\":[\x7b\"delta\":\x7b\"role\":\"assistant\"\x7d\x7d]\x7d\n"

/-- A complete `data:` line whose payload is not valid JSON and does not
have the brace shape the regex requires. -/
def chunkNonObj : String := "data: nope\n"

/-- One chunk holding a valid delta line, then a `data:` line whose
brace-shaped payload is not valid JSON, then another valid delta line. -/
def chunkMixed : String :=
  "data: \x7b\"choices\":[\x7b\"delta\":\x7b\"content\":\"hi\"\x7d\x7d]\x7d\n" ++
  "data: \x7boops\x7d\n" ++
  "data: \x7b\"choices\":[\x7b\"delta\":\x7b\"content\":\"ZZ\"\x7d\x7d]\x7d\n"

/-- The provider error body of the 429 scenario. -/
def errBodyRate : String := "\x7b\"error\":\x7b\"code\":\"rate_limit\"\x7d\x7d"

/-- An unparsable provider error body. -/
def errBodyGarbage : String := "not json"

theorem strle_refl (a : String) : StrLe a a :=
  ⟨"", (String.append_empty a).symm⟩

theorem strle_trans {a b c : String} (h1 : StrLe a b) (h2 : StrLe b c) : StrLe a c := by
  obtain ⟨u, rfl⟩ := h1
  obtain ⟨v, rfl⟩ := h2
  exact ⟨u ++ v, String.append_assoc a u v⟩

theorem strle_append (a c : String) : StrLe a (a ++ c) := ⟨c, rfl⟩

/-- A settled promise stays settled with the same value: `resolve` and
`reject` after the first settlement are no-ops, and no event un-settles. -/
theorem settled_stable (st : SessionState) (e : RespEvent) (x : Settle)
    (h : st.settled = some x) : (stepSession st e).settled = some x := by
  cases e with
  | chunk c =>
    simp only [stepSession]
    split <;> simp [h]
  | endOfStream =>
    simp only [stepSession]
    split <;> simp [settleOnce, h]
  | cancel => simp [stepSession, settleOnce, h]
  | reqError m => simp [stepSession, settleOnce, h]

theorem settled_stable_run (evs : List RespEvent) (st : SessionState) (x : Settle)
    (h : st.settled = some x) : (evs.foldl stepSession st).settled = some x := by
  induction evs generalizing st with
  | nil => simpa using h
  | cons e evs ih => exact ih _ (settled_stable st e x h)

/-- The `cancel` event always leaves the request destroyed. -/
theorem cancel_destroys (st : SessionState) : (stepSession st RespEvent.cancel).destroyed = true := by
  simp only [stepSession, settleOnce]
  split <;> rfl

/-- Once the request is destroyed, no later event re-creates it and no
later event grows the sink log: destroyed responses deliver no body
events, and the remaining events only touch the settlement. -/
theorem destroyed_frozen (evs : List RespEvent) (st : SessionState) (h : st.destroyed = true) :
    (evs.foldl stepSession st).destroyed = true ∧
    (evs.foldl stepSession st).sinkLog = st.sinkLog := by
  induction evs generalizing st with
  | nil => exact ⟨h, rfl⟩
  | cons e evs ih =>
    have hstep : (stepSession st e).destroyed = true ∧ (stepSession st e).sinkLog = st.sinkLog := by
      cases e <;> simp [stepSession, settleOnce, h] <;> split <;> simp [h]
    obtain ⟨h1, h2⟩ := ih (stepSession st e) hstep.1
    exact ⟨h1, h2.trans hstep.2⟩

/-- Chunk events neither settle the promise nor destroy the request. -/
theorem chunks_preserve (evs : List RespEvent) (st : SessionState)
    (hall : evs.all isChunk = true) (h1 : st.settled = none) (h2 : st.destroyed = false) :
    (evs.foldl stepSession st).settled = none ∧
    (evs.foldl stepSession st).destroyed = false := by
  induction evs generalizing st with
  | nil => exact ⟨h1, h2⟩
  | cons e evs ih =>
    rw [List.all_cons, Bool.and_eq_true] at hall
    cases e with
    | chunk c =>
      have hstep : (stepSession st (RespEvent.chunk c)).settled = none ∧
          (stepSession st (RespEvent.chunk c)).destroyed = false := by
        simp [stepSession, h2, h1]
      exact ih _ hall.2 hstep.1 hstep.2
    | endOfStream => simp [isChunk] at hall
    | cancel => simp [isChunk] at hall
    | reqError m => simp [isChunk] at hall

/-- Processing the captures of one chunk only ever appends to the running
text; every sink argument extends the text at chunk entry and is itself a
stage of the final text; successive sink arguments extend one another. -/
theorem processCaps_spec (caps : List String) (ft : String) :
    StrLe ft (processCaps ft caps).fullText ∧
    (∀ s ∈ (processCaps ft caps).sinks, StrLe ft s ∧ StrLe s (processCaps ft caps).fullText) ∧
    List.Chain' StrLe (processCaps ft caps).sinks := by
  induction caps generalizing ft with
  | nil =>
    refine ⟨strle_refl ft, ?_, ?_⟩ <;> simp [processCaps]
  | cons cap rest ih =>
    cases hx : extractContent cap with
    | error e =>
      refine ⟨?_, ?_, ?_⟩ <;> simp [processCaps, hx]
      exact strle_refl ft
    | ok o =>
      cases o with
      | none =>
        have := ih ft
        simpa [processCaps, hx] using this
      | some content =>
        obtain ⟨h1, h2, h3⟩ := ih (ft ++ content)
        have hstep : StrLe ft (ft ++ content) := strle_append ft content
        refine ⟨?_, ?_, ?_⟩
        · simpa [processCaps, hx] using strle_trans hstep h1
        · intro s hs
          simp only [processCaps, hx] at hs ⊢
          rcases List.mem_cons.mp hs with rfl | hs'
          · exact ⟨hstep, h1⟩
          · exact ⟨strle_trans hstep (h2 s hs').1, (h2 s hs').2⟩
        · simp only [processCaps, hx]
          refine List.chain'_cons'.mpr ⟨?_, h3⟩
          intro y hy
          exact (h2 y (List.mem_of_mem_head? hy)).1

/-- Session invariant behind the monotonic-output claim: the sink log is
a chain under text extension and every logged text is a stage of the
current running text. -/
def sessionInv (st : SessionState) : Prop :=
  List.Chain' StrLe st.sinkLog ∧ ∀ t ∈ st.sinkLog, StrLe t st.fullText

theorem stepSession_inv (st : SessionState) (e : RespEvent) (h : sessionInv st) :
    sessionInv (stepSession st e) := by
  obtain ⟨hchain, hmem⟩ := h
  cases e with
  | chunk c =>
    by_cases hd : st.destroyed
    · simpa [stepSession, hd] using ⟨hchain, hmem⟩
    · obtain ⟨p1, p2, p3⟩ := processCaps_spec (dataMatches c) st.fullText
      simp only [stepSession, hd, if_false, sessionInv]
      constructor
      · refine List.chain'_append.mpr ⟨hchain, p3, ?_⟩
        intro x hx y hy
        exact strle_trans (hmem x (List.mem_of_mem_getLast? hx))
          (p2 y (List.mem_of_mem_head? hy)).1
      · intro t ht
        rcases List.mem_append.mp ht with h' | h'
        · exact strle_trans (hmem t h') p1
        · exact (p2 t h').2
  | endOfStream =>
    dsimp only [stepSession]
    split
    · exact ⟨hchain, hmem⟩
    · unfold settleOnce
      split <;> exact ⟨hchain, hmem⟩
  | cancel =>
    dsimp only [stepSession]
    unfold settleOnce
    split <;> exact ⟨hchain, hmem⟩
  | reqError m =>
    dsimp only [stepSession]
    unfold settleOnce
    split <;> exact ⟨hchain, hmem⟩

theorem runSession_inv (status : Nat) (msg : String) (evs : List RespEvent) :
    sessionInv (runSession status msg evs) := by
  have init : sessionInv (initSession status msg) := by
    constructor <;> simp [initSession]
  rw [runSession]
  generalize initSession status msg = st at init ⊢
  induction evs generalizing st with
  | nil => exact init
  | cons e evs ih => exact ih _ (stepSession_inv st e init)

/-- Coordinator invariant: a session is in flight exactly while
`cancellationTokenSource` is non-null. -/
def coordInv (s : CoordState) : Prop :=
  s.activeSessions = if s.busy then 1 else 0

theorem stepCoord_inv (s : CoordState) (e : CoordEvent) (h : coordInv s) :
    coordInv (stepCoord s e) := by
  cases e <;> simp only [stepCoord] <;> split <;>
    simp_all [coordInv]

theorem runCoord_inv (evs : List CoordEvent) : coordInv (runCoord evs) := by
  have init : coordInv initCoord := by simp [coordInv, initCoord]
  rw [runCoord]
  generalize initCoord = st at init ⊢
  induction evs generalizing st with
  | nil => exact init
  | cons e evs ih => exact ih _ (stepCoord_inv st e init)

/-- C1: the spec requires chunk-boundary independence — a trailing
partial line must be buffered and reassembled with the next chunk.  The
code instead regex-scans each decoded chunk in isolation
(src/unnamed/part_000:158-172), so a line split across two chunks is
dropped: the unsplit stream `data: {..."content":"hi"...}\n` yields the
final text `"hi"` with one sink call, while the same bytes split
mid-line (after twelve characters) yield final text `""` and no sink
call.  The spec itself flags regex scanning over raw chunks as a bug to
be replaced by a line-buffering parser, so this is a code bug, not a
spec error. -/
theorem chadcommit_C1 :
    chunkHiA ++ chunkHiB = chunkHi ∧
    runSession 200 "" [RespEvent.chunk chunkHi, RespEvent.endOfStream] =
      ⟨"hi", ["hi"], some (Settle.resolved (some "hi")), false, []⟩ ∧
    runSession 200 "" [RespEvent.chunk chunkHiA, RespEvent.chunk chunkHiB, RespEvent.endOfStream] =
      ⟨"", [], some (Settle.resolved (some "")), false, []⟩ := by
  refine ⟨by decide, by decide, by decide⟩

/-- C2: at most one completion session exists at any instant; a trigger
arriving while a session is outstanding leaves the coordinator state
unchanged (no second session, no new token source); accepting the
offered cancel affordance fires exactly one cancellation signal and
returns the coordinator to idle. -/
theorem chadcommit_C2 :
    (∀ evs : List CoordEvent, (runCoord evs).activeSessions ≤ 1) ∧
    (∀ s : CoordState, s.busy = true → stepCoord s CoordEvent.trigger = s) ∧
    (∀ s : CoordState, s.busy = true →
      (stepCoord s CoordEvent.acceptCancel).cancelsFired = s.cancelsFired + 1 ∧
      (stepCoord s CoordEvent.acceptCancel).busy = false) := by
  refine ⟨?_, ?_, ?_⟩
  · intro evs
    have h := runCoord_inv evs
    rw [coordInv] at h
    rw [h]
    split <;> omega
  · intro s hb
    simp [stepCoord, hb]
  · intro s hb
    constructor <;> simp [stepCoord, hb]

/-- Witness for C2 at a concrete busy state and a concrete double
trigger. -/
theorem chadcommit_C2_witness :
    (⟨true, 1, 1, 0⟩ : CoordState).busy = true ∧
    (runCoord [CoordEvent.trigger, CoordEvent.trigger]).activeSessions ≤ 1 ∧
    stepCoord ⟨true, 1, 1, 0⟩ CoordEvent.trigger = ⟨true, 1, 1, 0⟩ ∧
    (stepCoord ⟨true, 1, 1, 0⟩ CoordEvent.acceptCancel).cancelsFired = 0 + 1 ∧
    (stepCoord ⟨true, 1, 1, 0⟩ CoordEvent.acceptCancel).busy = false :=
  ⟨rfl, chadcommit_C2.1 [CoordEvent.trigger, CoordEvent.trigger],
    chadcommit_C2.2.1 ⟨true, 1, 1, 0⟩ rfl,
    (chadcommit_C2.2.2 ⟨true, 1, 1, 0⟩ rfl).1,
    (chadcommit_C2.2.2 ⟨true, 1, 1, 0⟩ rfl).2⟩

/-- C3: if the cancellation signal fires while the request is
outstanding (only body chunks so far, no end and no transport error),
the session destroys the underlying request and the promise resolves
with no value — it never rejects on cancellation, whatever arrives
afterwards. -/
theorem chadcommit_C3 (msg : String) (pre post : List RespEvent)
    (h : pre.all isChunk = true) :
    (runSession 200 msg (pre ++ RespEvent.cancel :: post)).settled =
      some (Settle.resolved none) ∧
    (runSession 200 msg (pre ++ RespEvent.cancel :: post)).destroyed = true := by
  rw [runSession, List.foldl_append]
  have hpre := chunks_preserve pre (initSession 200 msg) h (by simp [initSession]) (by simp [initSession])
  set st1 := pre.foldl stepSession (initSession 200 msg) with hst1
  have hc : (stepSession st1 RespEvent.cancel).settled = some (Settle.resolved none) := by
    simp [stepSession, settleOnce, hpre.1]
  have hd : (stepSession st1 RespEvent.cancel).destroyed = true := cancel_destroys st1
  simp only [List.foldl_cons]
  exact ⟨settled_stable_run post _ _ hc, (destroyed_frozen post _ hd).1⟩

/-- Witness for C3: one delta arrives, the user cancels, then a late
transport error arrives; the session still resolves with no value. -/
theorem chadcommit_C3_witness :
    ([RespEvent.chunk chunkFix].all isChunk = true) ∧
    (runSession 200 "OK"
      ([RespEvent.chunk chunkFix] ++ RespEvent.cancel :: [RespEvent.reqError "socket hang up"])).settled =
      some (Settle.resolved none) ∧
    (runSession 200 "OK"
      ([RespEvent.chunk chunkFix] ++ RespEvent.cancel :: [RespEvent.reqError "socket hang up"])).destroyed = true :=
  ⟨by decide,
    (chadcommit_C3 "OK" [RespEvent.chunk chunkFix] [RespEvent.reqError "socket hang up"] (by decide)).1,
    (chadcommit_C3 "OK" [RespEvent.chunk chunkFix] [RespEvent.reqError "socket hang up"] (by decide)).2⟩

/-- C4: once the cancellation signal has fired, the sink is never
invoked again — whatever events follow the cancellation, the sink log is
exactly what it was at the moment of cancellation, because
`req.destroy()` stops body delivery. -/
theorem chadcommit_C4 (status : Nat) (msg : String) (pre post : List RespEvent) :
    (runSession status msg (pre ++ RespEvent.cancel :: post)).sinkLog =
    (runSession status msg (pre ++ [RespEvent.cancel])).sinkLog := by
  have hsplit : pre ++ RespEvent.cancel :: post = (pre ++ [RespEvent.cancel]) ++ post := by
    simp
  rw [hsplit, runSession, List.foldl_append, ← runSession]
  set mid := runSession status msg (pre ++ [RespEvent.cancel]) with hmid
  have hd : mid.destroyed = true := by
    rw [hmid, runSession, List.foldl_append]
    exact cancel_destroys _
  exact (destroyed_frozen post mid hd).2

/-- Witness for C4: a cancellation between two delta chunks freezes the
sink log at the single pre-cancellation invocation. -/
theorem chadcommit_C4_witness :
    (runSession 200 "" [RespEvent.chunk chunkFix, RespEvent.cancel, RespEvent.chunk chunkBug]).sinkLog =
    (runSession 200 "" [RespEvent.chunk chunkFix, RespEvent.cancel]).sinkLog :=
  chadcommit_C4 200 "" [RespEvent.chunk chunkFix] [RespEvent.chunk chunkBug]

/-- C5 counterexample: a 429 response with body
`{"error":{"code":"rate_limit"}}` does not fail with
`ProviderRejected(429, "rate_limit")`: the source rejects with the fixed
string `OpenAI: 429 <statusMessage>` before any body byte arrives, and
an unparsable body yields the very same rejection, while the claim
requires the two bodies to produce different codes (`"rate_limit"` vs
`"unknown"`).  The error body is never read or parsed. -/
theorem chadcommit_C5_counterexample :
    (runSession 429 "Too Many Requests"
      [RespEvent.chunk errBodyRate, RespEvent.endOfStream]).settled =
      some (Settle.rejected "OpenAI: 429 Too Many Requests") ∧
    (runSession 429 "Too Many Requests"
      [RespEvent.chunk errBodyGarbage, RespEvent.endOfStream]).settled =
      some (Settle.rejected "OpenAI: 429 Too Many Requests") := by
  refine ⟨by decide, by decide⟩

/-- C5 (amended): for every response whose HTTP status is not 200, the
session rejects immediately with the string
`OpenAI: <statusCode> <statusMessage>`; the response body is never read,
so the rejection is the same whatever body events follow. -/
theorem chadcommit_C5 (status : Nat) (msg : String) (evs : List RespEvent)
    (h : status ≠ 200) :
    (runSession status msg evs).settled =
      some (Settle.rejected ("OpenAI: " ++ toString status ++ " " ++ msg)) := by
  have hinit : (initSession status msg).settled =
      some (Settle.rejected ("OpenAI: " ++ toString status ++ " " ++ msg)) := by
    simp [initSession, h]
  exact settled_stable_run evs _ _ hinit

/-- Witness for C5 (amended) at the 429 scenario. -/
theorem chadcommit_C5_witness :
    (429 ≠ 200) ∧
    (runSession 429 "Too Many Requests"
      [RespEvent.chunk errBodyRate, RespEvent.endOfStream]).settled =
      some (Settle.rejected ("OpenAI: " ++ toString 429 ++ " " ++ "Too Many Requests")) :=
  ⟨by decide,
    chadcommit_C5 429 "Too Many Requests"
      [RespEvent.chunk errBodyRate, RespEvent.endOfStream] (by decide)⟩

/-- C6 counterexample: the complete line `data: nope\n` starts with the
prefix `data:` and its payload is not valid JSON, yet the session does
not fail with any error — the line is silently dropped (the regex only
matches brace-shaped payloads) and the session resolves normally with
the empty text. -/
theorem chadcommit_C6_counterexample :
    runSession 200 "" [RespEvent.chunk chunkNonObj, RespEvent.endOfStream] =
      ⟨"", [], some (Settle.resolved (some "")), false, []⟩ := by
  decide

/-- C6 (amended): a `data:` line whose payload is not brace-shaped is
silently skipped (no error, no sink call); a `data:` line whose
brace-shaped payload is not valid JSON throws a `SyntaxError` that
escapes the chunk handler uncaught: the session promise is not rejected
(it stays unsettled by the malformed line), the remaining matches of
that chunk are not processed (the `"ZZ"` delta after the bad line is
lost), and partial output already delivered to the sink (`"hi"`) is left
in place. -/
theorem chadcommit_C6 :
    runSession 200 "" [RespEvent.chunk chunkMixed] =
      ⟨"hi", ["hi"], none, false, [JsErr.syntaxError]⟩ ∧
    runSession 200 "" [RespEvent.chunk chunkNonObj] =
      ⟨"", [], none, false, []⟩ := by
  refine ⟨by decide, by decide⟩

/-- C7: during one session the output text only grows — every sink
invocation receives the full cumulative text, each previously delivered
text is a prefix (extension-ordered chain) of every later one and of the
final running text; a delta with no text fragment produces no sink
invocation and no error. -/
theorem chadcommit_C7 :
    (∀ (status : Nat) (msg : String) (evs : List RespEvent),
      List.Chain' StrLe (runSession status msg evs).sinkLog ∧
      ∀ t ∈ (runSession status msg evs).sinkLog,
        StrLe t (runSession status msg evs).fullText) ∧
    ((runSession 200 "" [RespEvent.chunk chunkRoleOnly]).sinkLog = [] ∧
     (runSession 200 "" [RespEvent.chunk chunkRoleOnly]).uncaught = []) := by
  refine ⟨fun status msg evs => ?_, by decide, by decide⟩
  obtain ⟨h1, h2⟩ := runSession_inv status msg evs
  exact ⟨h1, h2⟩

/-- Witness for C7: in the two-delta stream the first delivered text is
in the log and is extended by the final running text. -/
theorem chadcommit_C7_witness :
    "fix: " ∈ (runSession 200 "" [RespEvent.chunk chunkFix, RespEvent.chunk chunkBug]).sinkLog ∧
    StrLe "fix: " (runSession 200 "" [RespEvent.chunk chunkFix, RespEvent.chunk chunkBug]).fullText :=
  ⟨by decide,
    (chadcommit_C7.1 200 "" [RespEvent.chunk chunkFix, RespEvent.chunk chunkBug]).2
      "fix: " (by decide)⟩

/-- C8 counterexample: after the terminal marker line `data: [DONE]` the
session does not stop delivering: a delta chunk arriving after the
marker still invokes the sink (with `"x"`), while the claim requires no
further sink invocations once the marker was received. -/
theorem chadcommit_C8_counterexample :
    (runSession 200 "" [RespEvent.chunk chunkDone, RespEvent.chunk chunkX,
      RespEvent.endOfStream]).sinkLog = ["x"] ∧
    (["x"] : List String) ≠ [] := by
  refine ⟨by decide, by decide⟩

/-- C8 (amended): the `data: [DONE]` line never matches the brace-shaped
data-line pattern, so it is skipped without being JSON-parsed, producing
no sink invocation and no error; the session completes with the text
accumulated so far only when the transport signals end-of-stream; data
lines arriving after the marker are still processed and can invoke the
sink. -/
theorem chadcommit_C8 :
    runSession 200 "" [RespEvent.chunk chunkOk, RespEvent.chunk chunkDone,
        RespEvent.endOfStream] =
      ⟨"ok", ["ok"], some (Settle.resolved (some "ok")), false, []⟩ ∧
    (runSession 200 "" [RespEvent.chunk chunkDone, RespEvent.chunk chunkX,
        RespEvent.endOfStream]).sinkLog = ["x"] := by
  refine ⟨by decide, by decide⟩

/-- C9 counterexample: the request body sent for the end-to-end scenario
does not carry model `"m"` — `turboCompletion` hard-codes the model, so
a request with model `"m"` never occurs. -/
theorem chadcommit_C9_counterexample :
    (turboRequestBody [⟨"user", "x"⟩]).model = "gpt-3.5-turbo" ∧
    (turboRequestBody [⟨"user", "x"⟩]).model ≠ "m" := by
  refine ⟨rfl, by decide⟩

/-- C9 (amended): for messages `[{role:"user",content:"x"}]` the request
body is `{messages, model:"gpt-3.5-turbo", max_tokens:256, stream:true}`,
and against the server stream `fix: ` / `bug` / `[DONE]` the sink is
called exactly twice, with `"fix: "` then `"fix: bug"`, and the session
resolves with the final value `"fix: bug"`. -/
theorem chadcommit_C9 :
    turboRequestBody [⟨"user", "x"⟩] =
      ⟨[⟨"user", "x"⟩], "gpt-3.5-turbo", 256, true⟩ ∧
    runSession 200 "" [RespEvent.chunk chunkFix, RespEvent.chunk chunkBug,
        RespEvent.chunk chunkDone, RespEvent.endOfStream] =
      ⟨"fix: bug", ["fix: ", "fix: bug"], some (Settle.resolved (some "fix: bug")), false, []⟩ := by
  refine ⟨rfl, by decide⟩

/-- C10: the model identifier sent in the request body is always the
constant `"gpt-3.5-turbo"`; the configured model choice is never read by
the completion code, so changing it has no effect on the request. -/
theorem chadcommit_C10 :
    ∀ (cfg : ChadConfig) (diffPrompt : String),
      (suggestRequestBody cfg diffPrompt).model = "gpt-3.5-turbo" ∧
      ∀ m : String,
        suggestRequestBody { cfg with model := m } diffPrompt =
          suggestRequestBody cfg diffPrompt :=
  fun _ _ => ⟨rfl, fun _ => rfl⟩


